import Mathlib

/-!
Verification development for the SuperMan multi-agent runtime.

The definitions below are a shallow embedding of the Go sources:
`ds` (tasks, messages), `scheduler` (priority queue, auto scheduler),
`mailbox`, `state` (global state), `timer`, `workflow` (orchestrator) and
the agent runtime.  Machine integers are modelled as `Nat`/`Int` (no
overflow is relevant at the observed ranges), Go `nil`-able references as
`Option`, Go maps as association lists with first-match lookup, fallible
calls as `Except`/`Option`, and a Go `panic` (e.g. closing an already
closed channel) as `Option.none` of the affected operation.
-/

namespace SuperMan

/-- Wall-clock instant, as Go `time.Time` exposes it to the code under
verification: calendar fields plus sub-second nanoseconds.  Formatting with
layout `"20060102_150405"` or RFC3339 (without fractional seconds) only
reads the calendar fields, never `nsec`. -/
structure DateTime where
  year : Nat
  month : Nat
  day : Nat
  hour : Nat
  minute : Nat
  second : Nat
  nsec : Nat
deriving DecidableEq, Repr, Inhabited

/-- Zero-pad a number to two digits, as Go time layouts `01`/`02`/`15`/`04`/`05` do. -/
def pad2 (n : Nat) : String :=
  if n < 10 then "0" ++ toString n else toString n

/-- Zero-pad a number to four digits, as the Go time layout `2006` does. -/
def pad4 (n : Nat) : String :=
  if n < 10 then "000" ++ toString n
  else if n < 100 then "00" ++ toString n
  else if n < 1000 then "0" ++ toString n
  else toString n

/-- Go layout `"20060102_150405"` (second resolution; `nsec` is not printed). -/
def formatCompact (t : DateTime) : String :=
  pad4 t.year ++ pad2 t.month ++ pad2 t.day ++ "_" ++
    pad2 t.hour ++ pad2 t.minute ++ pad2 t.second

/-- Go `time.RFC3339` formatting, restricted to UTC instants (second
resolution; `nsec` is not printed). -/
def formatRFC3339 (t : DateTime) : String :=
  pad4 t.year ++ "-" ++ pad2 t.month ++ "-" ++ pad2 t.day ++ "T" ++
    pad2 t.hour ++ ":" ++ pad2 t.minute ++ ":" ++ pad2 t.second ++ "Z"

/-- Metadata mapping (`map[string]any` in Go).  Every operation modelled
here treats the stored values opaquely, so string values suffice. -/
abbrev Metadata := List (String × String)

/-- Insert or overwrite one metadata key, Go `m[k] = v`. -/
def metaSet (m : Metadata) (k v : String) : Metadata :=
  match m with
  | [] => [(k, v)]
  | (k0, v0) :: rest => if k0 = k then (k, v) :: rest else (k0, v0) :: metaSet rest k v

/-- Go `ds.Task`.  Status and priority are the string values of `ds.TaskStatus`
and `ds.TaskPriority`; a `nil` deadline pointer is `none`. -/
structure Task where
  id : String
  title : String
  description : String
  assignedTo : String
  assignedBy : String
  status : String
  priority : String
  dependencies : List String
  deliverables : List String
  deadline : Option DateTime
  createdAt : DateTime
  updatedAt : DateTime
  metadata : Metadata
deriving DecidableEq, Repr, Inhabited

/-- Go `ds.NewTask`: fresh task with empty dependency, deliverable and
metadata containers, created/updated stamped with the current time. -/
def NewTask (now : DateTime) (taskID title description assignedTo assignedBy status priority : String) : Task :=
  { id := taskID
    title := title
    description := description
    assignedTo := assignedTo
    assignedBy := assignedBy
    status := status
    priority := priority
    dependencies := []
    deliverables := []
    deadline := none
    createdAt := now
    updatedAt := now
    metadata := [] }

/-- Go `ds.GenerateTaskID`: the string `"auto_" + time.Now().Format("20060102_150405")`. -/
def GenerateTaskID (now : DateTime) : String :=
  "auto_" ++ formatCompact now

/-! ## scheduler/priority_queue.go -/

/-- The four priority level constants of the scheduler package. -/
def PriorityCritical : String := "Critical"

def PriorityHigh : String := "High"

def PriorityMedium : String := "Medium"

def PriorityLow : String := "Low"

/-- The `PriorityValue` map.  A Go map read on a missing key yields the
zero value, so every string outside the four levels maps to `0`. -/
def PriorityValue (p : String) : Nat :=
  if p = PriorityCritical then 0
  else if p = PriorityHigh then 1
  else if p = PriorityMedium then 2
  else if p = PriorityLow then 3
  else 0

/-- Swap the entries at positions `i` and `j` of a list (both in bounds in
every use below). -/
def swapAt2 (q : List Task) (i j : Nat) : List Task :=
  (q.set i (q.getD j default)).set j (q.getD i default)

/-- Inner loop of `TaskQueue.sortByPriority`: for fixed `i`, scan `j`
upward and swap whenever `PriorityValue(q[i]) > PriorityValue(q[j])`.
`fuel` bounds the remaining iterations; the loop itself stops as soon as
`j` reaches the (swap-invariant) length, so any `fuel ≥ q.length - j`
reproduces the loop exactly. -/
def sortInner (fuel : Nat) (q : List Task) (i j : Nat) : List Task :=
  match fuel with
  | 0 => q
  | fuel + 1 =>
    if j < q.length then
      sortInner fuel
        (if PriorityValue (q.getD i default).priority >
            PriorityValue (q.getD j default).priority
         then swapAt2 q i j else q) i (j + 1)
    else q

/-- Outer loop of `TaskQueue.sortByPriority`, fuelled the same way. -/
def sortOuter (fuel : Nat) (q : List Task) (i : Nat) : List Task :=
  match fuel with
  | 0 => q
  | fuel + 1 =>
    if i < q.length then sortOuter fuel (sortInner q.length q i (i + 1)) (i + 1) else q

/-- Go `TaskQueue.sortByPriority`: the in-place exchange sort over the whole
queue (`q.length` iterations of the outer loop suffice exactly). -/
def sortByPriority (q : List Task) : List Task :=
  sortOuter q.length q 0

/-- Go `TaskQueue.Dequeue`: return `nil` on an empty queue, otherwise sort by
priority value and pop the head. -/
def Dequeue (q : List Task) : Option (Task × List Task) :=
  if q.isEmpty then none
  else
    match sortByPriority q with
    | [] => none
    | t :: rest => some (t, rest)

/-- Repeatedly `Dequeue` until the queue is empty, listing the tasks in the
order they come out (fuelled by the queue length, which `Dequeue` decreases). -/
def drainDequeue (fuel : Nat) (q : List Task) : List Task :=
  match fuel with
  | 0 => []
  | fuel + 1 =>
    match Dequeue q with
    | none => []
    | some (t, rest) => t :: drainDequeue fuel rest

/-! ## scheduler: AutoScheduler (unnamed part holding `AutoScheduler`) -/

/-- Modelled from the spec: `TaskQueue.DequeueIf` is called by
`AutoScheduler.getNextReady` but its definition is absent from the source
files; spec §4.4 describes it as scanning in order and returning the first
task for which the predicate is true, tasks failing the predicate remaining
in place and retaining their position. -/
def DequeueIf (q : List Task) (pred : Task → Bool) : Option (Task × List Task) :=
  match q with
  | [] => none
  | t :: rest =>
    if pred t then some (t, rest)
    else (DequeueIf rest pred).map (fun p => (p.1, t :: p.2))

/-- The scheduler's `map[string]*TaskQueue`, as an association list with
first-match lookup (keys are unique in every state the program builds). -/
abbrev QueueMap := List (String × List Task)

/-- Go map read `m[p]`: `nil` when the key is absent. -/
def lookupQ (m : QueueMap) (p : String) : Option (List Task) :=
  (m.find? (fun e => e.1 = p)).map (fun e => e.2)

/-- Go map write `m[p] = q`: overwrite the binding or append a fresh one. -/
def setQ (m : QueueMap) (p : String) (q : List Task) : QueueMap :=
  match m with
  | [] => [(p, q)]
  | (k, v) :: rest => if k = p then (p, q) :: rest else (k, v) :: setQ rest p q

/-- Go `state.GlobalState.Tasks` as seen by the scheduler: task id to task.  A
`nil` `globalState` pointer is `none`. -/
abbrev TaskMap := List (String × Task)

/-- Go `GlobalState.GetTask`: `nil` when the id is absent. -/
def getTask (m : TaskMap) (id : String) : Option Task :=
  (m.find? (fun e => e.1 = id)).map (fun e => e.2)

/-- Go `GlobalState.AddTask` (the part the scheduler observes): key the task by its id. -/
def putTask (m : TaskMap) (t : Task) : TaskMap :=
  match m with
  | [] => [(t.id, t)]
  | (k, v) :: rest => if k = t.id then (t.id, t) :: rest else (k, v) :: putTask rest t

/-- The scheduler state the claims quantify over: the queue map (initialised
with the four levels) and the `globalState` reference (`none` models a `nil`
pointer; `main` always passes the bus's freshly created state). -/
structure SchedState where
  queues : QueueMap
  globalTasks : Option TaskMap
deriving Repr

/-- The scan order of `getNextReady`. -/
def priorities : List String :=
  [PriorityCritical, PriorityHigh, PriorityMedium, PriorityLow]

/-- Go `AutoScheduler.areDependenciesMet`: no dependencies, or a `nil` global
state, means met; otherwise every dependency id must resolve to a task
whose status is `completed`. -/
def areDependenciesMet (gs : Option TaskMap) (t : Task) : Bool :=
  if t.dependencies.isEmpty then true
  else
    match gs with
    | none => true
    | some m =>
      t.dependencies.all (fun depID =>
        match getTask m depID with
        | none => false
        | some dep => dep.status = "completed")

/-- Go `AutoScheduler.AddTask`: enqueue at the tail of the queue stored under
the given priority string, creating that queue if the key is absent, and
register the task in the global state when one is attached. -/
def AddTask (s : SchedState) (t : Task) (priority : String) : SchedState :=
  { queues := setQ s.queues priority ((lookupQ s.queues priority).getD [] ++ [t])
    globalTasks := s.globalTasks.map (fun m => putTask m t) }

/-- The loop body of `AutoScheduler.getNextReady` over the remaining scan
list: skip `nil` or empty queues, otherwise conditionally dequeue the first
task whose dependencies are met. -/
def getNextReadyAux (s : SchedState) : List String → Option (Task × SchedState)
  | [] => none
  | p :: ps =>
    match lookupQ s.queues p with
    | none => getNextReadyAux s ps
    | some q =>
      if q.isEmpty then getNextReadyAux s ps
      else
        match DequeueIf q (areDependenciesMet s.globalTasks) with
        | some (t, q') => some (t, { s with queues := setQ s.queues p q' })
        | none => getNextReadyAux s ps

/-- Go `AutoScheduler.getNextReady`: scan Critical, High, Medium, Low. -/
def getNextReady (s : SchedState) : Option (Task × SchedState) :=
  getNextReadyAux s priorities

/-- Tasks produced by up to `n` consecutive `getNextReady` calls (the
dispatch loop pulls until `nil`). -/
def dispatchList : Nat → SchedState → List Task
  | 0, _ => []
  | n + 1, s =>
    match getNextReady s with
    | none => []
    | some (t, s') => t :: dispatchList n s'

/-! ## scheduler: AgentLoad and findBestAgent -/

/-- Go `scheduler.AgentLoad`.  Loads are never negative in the program
(`AddAgent` starts at 0, `OnTaskComplete` clamps at 0), so `Nat` is used. -/
structure AgentLoad where
  name : String
  maxTasks : Nat
  currentLoad : Nat
  hierarchy : Nat
deriving DecidableEq, Repr, Inhabited

/-- Load fraction `float64(CurrentLoad) / float64(MaxTasks)`, modelled as an
exact rational.  Every agent reaching the comparison has
`currentLoad < maxTasks`, so the divisor is positive, and at the integer
ranges the program uses the correctly rounded IEEE division compares the
same way the exact quotient does. -/
def loadFrac (a : AgentLoad) : ℚ :=
  (a.currentLoad : ℚ) / (a.maxTasks : ℚ)

/-- The comparator handed to `sort.Slice` in `findBestAgent`: ascending
load fraction, ties broken by descending hierarchy rank. -/
def lessLoaded (x y : AgentLoad) : Bool :=
  if loadFrac x ≠ loadFrac y then decide (loadFrac x < loadFrac y)
  else decide (x.hierarchy > y.hierarchy)

/-- Insert into a list sorted by `lessLoaded`. -/
def insertLoaded (a : AgentLoad) : List AgentLoad → List AgentLoad
  | [] => [a]
  | b :: bs => if lessLoaded b a then b :: insertLoaded a bs else a :: b :: bs

/-- Sort by `lessLoaded`.  `sort.Slice` promises only an order consistent
with the comparator (it is unstable, and Go map iteration order is already
arbitrary); a stable insertion sort is one faithful resolution, and the
theorems below use only that the head is minimal for the comparator, which
holds for every resolution. -/
def sortLoaded : List AgentLoad → List AgentLoad
  | [] => []
  | a :: as => insertLoaded a (sortLoaded as)

/-- Go `AutoScheduler.findBestAgent` over the agent-load table (listed in map
iteration order).  Pinned tasks: honour `assignedTo`, never reassign.
Otherwise: filter agents with spare capacity and take the comparator
minimum. -/
def findBestAgent (loads : List AgentLoad) (t : Task) : Option AgentLoad :=
  if t.assignedTo ≠ "" then
    match loads.find? (fun a => a.name = t.assignedTo) with
    | some a => if a.currentLoad < a.maxTasks then some a else none
    | none => none
  else
    match sortLoaded (loads.filter (fun a => a.currentLoad < a.maxTasks)) with
    | [] => none
    | a :: _ => some a

/-! ## ds messages (part of `api/server.go`'s companion `ds` source) -/

/-- One entry of the `task_query` response content: the
`{task_id, title, status, priority}` map built per current task. -/
structure TaskSummary where
  taskId : String
  title : String
  status : String
  priority : String
deriving DecidableEq, Repr

/-- Go `RequestBody.Content` (`any` in Go): the two shapes the modelled code
stores there. -/
inductive ReqContent where
  | str (s : String)
  | taskList (ts : List TaskSummary)
deriving DecidableEq, Repr

/-- Go `ds.TaskCreateBody`. -/
structure TaskCreateBody where
  taskID : String
  title : String
  description : String
  assignedTo : String
  assignedBy : String
  dependencies : List String
  deliverables : List String
  deadline : Option String
  metadata : Metadata
deriving DecidableEq, Repr

/-- Go `ds.RequestBody`. -/
structure RequestBody where
  type : String
  content : ReqContent
  metadata : Option Metadata
deriving DecidableEq, Repr

/-- The message body variants the modelled operations construct or inspect. -/
inductive MsgBody where
  | taskCreate (b : TaskCreateBody)
  | request (b : RequestBody)
deriving DecidableEq, Repr

/-- Go `ds.Message`. -/
structure Message where
  id : String
  sender : String
  receiver : String
  type : String
  body : MsgBody
deriving DecidableEq, Repr

/-- Go `ds.NewMessage`; the freshly generated UUID is passed in explicitly. -/
def NewMessage (uuid sender receiver msgType : String) (body : MsgBody) : Message :=
  { id := uuid, sender := sender, receiver := receiver, type := msgType, body := body }

/-- Go `ds.NewTaskCreateMessage`: sender `"scheduler"`, receiver the assignee. -/
def NewTaskCreateMessage (uuid taskID title description assignedTo assignedBy : String)
    (dependencies deliverables : List String) (deadline : Option String)
    (metadata : Metadata) : Message :=
  NewMessage uuid "scheduler" assignedTo "task_create"
    (.taskCreate
      { taskID := taskID, title := title, description := description
        assignedTo := assignedTo, assignedBy := assignedBy
        dependencies := dependencies, deliverables := deliverables
        deadline := deadline, metadata := metadata })

/-- Go `ds.NewRequestMessage`. -/
def NewRequestMessage (uuid sender receiver reqType : String) (content : ReqContent)
    (metadata : Option Metadata) : Message :=
  NewMessage uuid sender receiver "request" (.request
    { type := reqType, content := content, metadata := metadata })

/-- Go `Message.GetTaskCreateBody` on a message whose body was built in-process. -/
def GetTaskCreateBody (m : Message) : Option TaskCreateBody :=
  match m.body with
  | .taskCreate b => some b
  | _ => none

/-! ## RFC3339 parsing (Go `time.Parse(time.RFC3339, s)`, UTC instants) -/

/-- Digits of a fixed-width decimal field. -/
def digitsToNat (cs : List Char) : Option Nat :=
  if cs ≠ [] ∧ cs.all Char.isDigit then
    some (cs.foldl (fun n c => n * 10 + (c.toNat - 48)) 0)
  else none

/-- Parse `"YYYY-MM-DDTHH:MM:SSZ"`; anything else yields `none`. -/
def parseRFC3339 (s : String) : Option DateTime :=
  let cs := s.toList
  if cs.length = 20 ∧ cs.getD 4 ' ' = '-' ∧ cs.getD 7 ' ' = '-' ∧ cs.getD 10 ' ' = 'T' ∧
      cs.getD 13 ' ' = ':' ∧ cs.getD 16 ' ' = ':' ∧ cs.getD 19 ' ' = 'Z' then
    match digitsToNat (cs.take 4), digitsToNat ((cs.drop 5).take 2),
        digitsToNat ((cs.drop 8).take 2), digitsToNat ((cs.drop 11).take 2),
        digitsToNat ((cs.drop 14).take 2), digitsToNat ((cs.drop 17).take 2) with
    | some y, some mo, some d, some h, some mi, some sec =>
      some { year := y, month := mo, day := d, hour := h, minute := mi, second := sec, nsec := 0 }
    | _, _, _, _, _, _ => none
  else none

/-! ## workflow: Orchestrator.RunTask and the agent-side decoding -/

/-- Go `orchestratorImpl.RunTask`, up to the bus send: look up the assignee
among the registered agent names and build the task-create message.  The
source also builds a local `TaskCreateBody` whose `Deadline` field is set
to the RFC3339-formatted deadline, but that local is discarded: the actual
`ds.NewTaskCreateMessage` call passes `nil` for the deadline. -/
def RunTaskMessage (registered : List String) (uuid : String) (task : Task) :
    Except String Message :=
  if registered.contains task.assignedTo then
    let _discardedBodyDeadline := task.deadline.map formatRFC3339
    Except.ok (NewTaskCreateMessage uuid task.id task.title task.description
      task.assignedTo task.assignedBy task.dependencies task.deliverables
      none task.metadata)
  else
    Except.error ("agent " ++ task.assignedTo ++ " not found")

/-- The task `BaseAgentImpl.processMessageAsync` synthesizes from a
task-create body: status, priority and the timestamps are left at their Go
zero values, and the deadline is parsed back from RFC3339 when present. -/
def decodeTaskCreate (b : TaskCreateBody) : Task :=
  { id := b.taskID
    title := b.title
    description := b.description
    assignedTo := b.assignedTo
    assignedBy := b.assignedBy
    status := ""
    priority := ""
    dependencies := b.dependencies
    deliverables := b.deliverables
    deadline :=
      match b.deadline with
      | none => none
      | some s => parseRFC3339 s
    createdAt := default
    updatedAt := default
    metadata := b.metadata }

/-- The decoding branch of `processMessageAsync`: messages carrying a
task-create body become tasks. -/
def processDecode (m : Message) : Option Task :=
  (GetTaskCreateBody m).map decodeTaskCreate

/-! ## mailbox/mailbox.go -/

/-- Go `mailbox.Mailbox`: a buffered channel of capacity `cap` holding the
queued messages in FIFO order (archive and bus back-reference elided). -/
structure Mailbox where
  receiver : String
  cap : Nat
  inbox : List Message
deriving DecidableEq, Repr

/-- Go `Mailbox.PushInbox` with no concurrent consumer: a buffered channel
send succeeds immediately while the buffer is below capacity; once full,
no receiver can free a slot, so the 5-second timeout branch fires and the
call returns the mailbox-full error with the message dropped. -/
def PushInbox (mb : Mailbox) (m : Message) : Except String Mailbox :=
  if mb.inbox.length < mb.cap then
    Except.ok { mb with inbox := mb.inbox ++ [m] }
  else
    Except.error ("mailbox " ++ mb.receiver ++ " is full, message " ++ m.id ++ " dropped")

/-- Push a list of messages in order, stopping at the first error. -/
def pushAll (mb : Mailbox) : List Message → Except String Mailbox
  | [] => Except.ok mb
  | m :: ms =>
    match PushInbox mb m with
    | Except.ok mb' => pushAll mb' ms
    | Except.error e => Except.error e

/-! ## state/GlobalState -/

/-- Go `state.AgentState` as far as the version-counter claims observe it
(its task/message/metrics payload is never read by those claims). -/
structure AgentStateV where
  name : String
deriving DecidableEq, Repr

/-- Go `state.ExecutionHistory` (map-valued fields modelled opaquely). -/
structure ExecutionHistory where
  executionID : String
  timestamp : DateTime
  taskID : String
  messageID : String
  action : String
  input : Metadata
  output : Metadata
  status : String
  duration : Nat
  errorMessage : String
  dependencies : List String
deriving DecidableEq, Repr

/-- Go map write `m[k] = v` on a string-keyed association list. -/
def assocSet {α : Type} (m : List (String × α)) (k : String) (v : α) : List (String × α) :=
  match m with
  | [] => [(k, v)]
  | (k0, v0) :: rest => if k0 = k then (k, v) :: rest else (k0, v0) :: assocSet rest k v

/-- Go map read. -/
def assocGet {α : Type} (m : List (String × α)) (k : String) : Option α :=
  (m.find? (fun e => e.1 = k)).map (fun e => e.2)

/-- Go `delete(m, k)`. -/
def assocDel {α : Type} (m : List (String × α)) (k : String) : List (String × α) :=
  m.filter (fun e => e.1 ≠ k)

/-- Go `state.GlobalState`, restricted to the buckets the claimed mutators
touch (the remaining domain buckets are never mutated by modelled code). -/
structure GlobalState where
  agents : List (String × AgentStateV)
  tasks : TaskMap
  messages : List Message
  currentTime : DateTime
  kpis : List (String × ℚ)
  systemHealth : Metadata
  announcements : List String
  companyExecHistory : List ExecutionHistory
  version : Int
deriving Repr

/-- Go `GlobalState.SetAgentState`. -/
def GSSetAgentState (gs : GlobalState) (name : String) (st : AgentStateV) : GlobalState :=
  { gs with agents := assocSet gs.agents name st, version := gs.version + 1 }

/-- Go `GlobalState.UpdateAgentState`: apply the updater and bump the version
only when the agent exists. -/
def GSUpdateAgentState (gs : GlobalState) (name : String) (f : AgentStateV → AgentStateV) :
    GlobalState :=
  match assocGet gs.agents name with
  | some a => { gs with agents := assocSet gs.agents name (f a), version := gs.version + 1 }
  | none => gs

/-- Go `GlobalState.DeleteAgentState`. -/
def GSDeleteAgentState (gs : GlobalState) (name : String) : GlobalState :=
  { gs with agents := assocDel gs.agents name, version := gs.version + 1 }

/-- Go `GlobalState.CreateAgentState`. -/
def GSCreateAgentState (gs : GlobalState) (name : String) : GlobalState :=
  { gs with agents := assocSet gs.agents name { name := name }, version := gs.version + 1 }

/-- Go `GlobalState.AddTask`. -/
def GSAddTask (gs : GlobalState) (t : Task) : GlobalState :=
  { gs with tasks := assocSet gs.tasks t.id t, version := gs.version + 1 }

/-- Go `GlobalState.UpdateTask`: silent no-op on an absent id. -/
def GSUpdateTask (gs : GlobalState) (taskID : String) (f : Task → Task) : GlobalState :=
  match assocGet gs.tasks taskID with
  | some t => { gs with tasks := assocSet gs.tasks taskID (f t), version := gs.version + 1 }
  | none => gs

/-- Go `GlobalState.DeleteTask`. -/
def GSDeleteTask (gs : GlobalState) (taskID : String) : GlobalState :=
  { gs with tasks := assocDel gs.tasks taskID, version := gs.version + 1 }

/-- Go `GlobalState.AddMessage`. -/
def GSAddMessage (gs : GlobalState) (m : Message) : GlobalState :=
  { gs with messages := gs.messages ++ [m], version := gs.version + 1 }

/-- Go `GlobalState.SetKPI`. -/
def GSSetKPI (gs : GlobalState) (key : String) (value : ℚ) : GlobalState :=
  { gs with kpis := assocSet gs.kpis key value, version := gs.version + 1 }

/-- Go `GlobalState.SetSystemHealth`. -/
def GSSetSystemHealth (gs : GlobalState) (key value : String) : GlobalState :=
  { gs with systemHealth := assocSet gs.systemHealth key value, version := gs.version + 1 }

/-- Go `GlobalState.AddExecutionHistory`: appends to the company history but,
unlike every other mutator in the file, does not touch `Version`. -/
def GSAddExecutionHistory (gs : GlobalState) (h : ExecutionHistory) : GlobalState :=
  { gs with companyExecHistory := gs.companyExecHistory ++ [h] }

/-- Go `GlobalState.UpdateCurrentTime`. -/
def GSUpdateCurrentTime (gs : GlobalState) (t : DateTime) : GlobalState :=
  { gs with currentTime := t, version := gs.version + 1 }

/-- Go `GlobalState.ClearTasks`. -/
def GSClearTasks (gs : GlobalState) : GlobalState :=
  { gs with tasks := [], version := gs.version + 1 }

/-- Go `GlobalState.ClearMessages`. -/
def GSClearMessages (gs : GlobalState) : GlobalState :=
  { gs with messages := [], version := gs.version + 1 }

/-- Go `GlobalState.Set` (shared key/value bucket, stored in SystemHealth). -/
def GSSet (gs : GlobalState) (key value : String) : GlobalState :=
  { gs with systemHealth := assocSet gs.systemHealth key value, version := gs.version + 1 }

/-- Go `GlobalState.AddPublicAnnouncement`: appends to the announcement list
without touching `Version` (the source even takes only the read lock while
mutating, unlike every other mutator). -/
def GSAddPublicAnnouncement (gs : GlobalState) (announcement : String) : GlobalState :=
  { gs with announcements := gs.announcements ++ [announcement] }

/-! ## stop semantics (agents/base_agent.go and the AutoScheduler) -/

/-- Go `close(ch)`: closing an already closed channel panics, modelled as
`none`; otherwise the channel becomes closed. -/
def closeChannel (closed : Bool) : Option Bool :=
  if closed then none else some true

/-- The lifecycle fields of `BaseAgentImpl` guarded by `processingMu`. -/
structure AgentRuntime where
  running : Bool
  stopClosed : Bool
deriving DecidableEq, Repr

/-- Go `BaseAgentImpl.Stop`: returns immediately when not running, otherwise
clears the flag, closes the stop channel and joins (the join leaves the
modelled state unchanged).  The `nil` result is `some`. -/
def AgentStop (a : AgentRuntime) : Option AgentRuntime :=
  if a.running then
    (closeChannel a.stopClosed).map (fun c => { running := false, stopClosed := c })
  else some a

/-- The lifecycle fields of `AutoScheduler`. -/
structure SchedRuntime where
  stopClosed : Bool
deriving DecidableEq, Repr

/-- Go `AutoScheduler.Stop`: closes the stop channel unconditionally and joins. -/
def SchedulerStop (s : SchedRuntime) : Option SchedRuntime :=
  (closeChannel s.stopClosed).map (fun c => { stopClosed := c })

/-! ## agents/base_agent.go: handleRequestMessage -/

/-- The fields of `BaseAgentImpl` that `handleRequestMessage` reads or
writes: the agent's name, its current task list, and its own mailbox. -/
structure BaseAgent where
  name : String
  currentTasks : List Task
  mailbox : Mailbox
deriving DecidableEq, Repr

/-- The response message the `task_query` arm of `handleRequestMessage`
constructs: a request-type message listing the agent's current tasks,
with sender the agent itself and receiver the literal `"unknown"`. -/
def taskQueryResponse (a : BaseAgent) (uuid : String) : Message :=
  NewRequestMessage uuid a.name "unknown" "task_query_response"
    (.taskList (a.currentTasks.map (fun t =>
      { taskId := t.id, title := t.title, status := t.status, priority := t.priority })))
    none

/-- Go `BaseAgentImpl.handleRequestMessage`: for sub-type `task_query`, build
the response and push it into the agent's own inbox, discarding any push
error; every branch returns `nil`.  The result pairs the updated agent
with the returned error. -/
def handleRequestMessage (a : BaseAgent) (uuid : String) (body : RequestBody) :
    BaseAgent × Option String :=
  if body.type = "task_query" then
    match PushInbox a.mailbox (taskQueryResponse a uuid) with
    | Except.ok mb' => ({ a with mailbox := mb' }, none)
    | Except.error _ => (a, none)
  else
    (a, none)

/-! ## timer engine (fireJob) -/

/-- Go `timer.TimerJob`, restricted to the fields `fireJob` reads. -/
structure TimerJob where
  name : String
  targetAgent : String
  title : String
  description : String
  priority : String
deriving DecidableEq, Repr

/-- Go `TimerEngine.fireJob`: synthesize a pending task whose id comes from
`GenerateTaskID` (which reads the wall clock `idTime` at the moment of the
call) and whose metadata tags the timer source; `now` is the tick time. -/
def fireJob (job : TimerJob) (idTime now : DateTime) : Task :=
  let t := NewTask now (GenerateTaskID idTime) job.title job.description
    job.targetAgent "timer_engine" "pending" job.priority
  { t with
    metadata := metaSet (metaSet (metaSet t.metadata "source" "timer")
      "timer_job" job.name) "fired_at" (formatRFC3339 now) }

/-! ## Concrete values used by counterexamples and witnesses -/

/-- Shorthand for a fresh task with the given id and priority. -/
def mkTask (id priority : String) : Task :=
  NewTask default id ("work " ++ id) "" "" "" "pending" priority

/-- Medium-priority task enqueued first. -/
def taskM1 : Task := mkTask "m1" "Medium"

/-- Medium-priority task enqueued second. -/
def taskM2 : Task := mkTask "m2" "Medium"

/-- Critical-priority task enqueued last. -/
def taskC3 : Task := mkTask "c3" "Critical"

/-! ## Further concrete values for counterexamples and witnesses -/

/-- A concrete global state with a nonzero version counter. -/
def gsExample : GlobalState :=
  { agents := [("ceo", { name := "ceo" })]
    tasks := []
    messages := []
    currentTime := default
    kpis := [("revenue", 12)]
    systemHealth := []
    announcements := ["hello"]
    companyExecHistory := []
    version := 7 }

/-- A concrete execution-history record. -/
def ehExample : ExecutionHistory :=
  { executionID := "exec-1"
    timestamp := default
    taskID := "t-1"
    messageID := ""
    action := "process_task"
    input := []
    output := []
    status := "success"
    duration := 5
    errorMessage := ""
    dependencies := [] }

/-- A concrete request message with the given id. -/
def mkMsg (id : String) : Message :=
  NewRequestMessage id "cpo" "ceo" "ping" (.str "hello") none

/-- A timer job due at the same tick as `timerJobB`. -/
def timerJobA : TimerJob :=
  { name := "daily-report", targetAgent := "cto", title := "Daily report"
    description := "Compile the daily report", priority := "Medium" }

/-- A second timer job due at the same tick as `timerJobA`. -/
def timerJobB : TimerJob :=
  { name := "weekly-sync", targetAgent := "ceo", title := "Weekly sync"
    description := "Prepare the weekly sync", priority := "High" }

/-- A wall-clock instant. -/
def instantA : DateTime :=
  { year := 2026, month := 2, day := 11, hour := 12, minute := 0, second := 30, nsec := 1000 }

/-- A strictly later instant inside the same wall-clock second. -/
def instantB : DateTime :=
  { year := 2026, month := 2, day := 11, hour := 12, minute := 0, second := 30, nsec := 999000 }

/-- A concrete deadline. -/
def deadlineExample : DateTime :=
  { year := 2026, month := 3, day := 1, hour := 9, minute := 30, second := 0, nsec := 0 }

/-- A concrete task carrying a deadline, pinned to agent `ops`. -/
def taskWithDeadline : Task :=
  { id := "t-100", title := "Ship", description := "Ship the release"
    assignedTo := "ops", assignedBy := "ceo", status := "pending", priority := "high"
    dependencies := ["t-99"], deliverables := ["report"]
    deadline := some deadlineExample, createdAt := default, updatedAt := default
    metadata := [("source", "test")] }

/-- The task obtained by round-tripping `taskWithDeadline` through
`RunTask`'s message and the agent-side decoding. -/
def roundTripped : Task :=
  ((RunTaskMessage ["ops"] "uuid-1" taskWithDeadline).toOption.bind processDecode).getD default

/-- A concrete agent holding one task, with a roomy mailbox. -/
def agentExample : BaseAgent :=
  { name := "ceo", currentTasks := [mkTask "t1" "high"]
    mailbox := { receiver := "ceo", cap := 2, inbox := [] } }

/-- A concrete `task_query` request body. -/
def queryBody : RequestBody :=
  { type := "task_query", content := .str "", metadata := none }

/-- Predicate: `t` occurs in one of the four canonical level queues of `s`. -/
def memCanonical (s : SchedState) (t : Task) : Bool :=
  priorities.any (fun p => decide (t ∈ (lookupQ s.queues p).getD []))

/-- A task carrying the lowercase `ds` priority value `medium`. -/
def lowercaseTask : Task := mkTask "auto_gen" "medium"

/-- A saturated `ceo` load entry. -/
def ceoLoad : AgentLoad := { name := "ceo", maxTasks := 3, currentLoad := 3, hierarchy := 1 }

/-- An `ops` load entry with spare capacity. -/
def opsLoad : AgentLoad := { name := "ops", maxTasks := 3, currentLoad := 1, hierarchy := 5 }

/-- A task pinned to the saturated `ceo`. -/
def pinnedTask : Task := { mkTask "p1" "medium" with assignedTo := "ceo" }

/-- A ready critical task used by the scheduler witnesses. -/
def readyCritical : Task := mkTask "c-ready" "Critical"

/-- A scheduler state holding one ready critical task. -/
def schedExample : SchedState :=
  { queues := [(PriorityCritical, [readyCritical]), (PriorityHigh, []),
      (PriorityMedium, []), (PriorityLow, [])]
    globalTasks := some [] }

/-- The state after `getNextReady` removes the critical task. -/
def schedExampleAfter : SchedState :=
  { queues := [(PriorityCritical, ([] : List Task)), (PriorityHigh, []),
      (PriorityMedium, []), (PriorityLow, [])]
    globalTasks := some [] }

/-! ## Helper lemmas about the scheduler scan -/

theorem DequeueIf_some_spec (q : List Task) (pred : Task → Bool) (t : Task) (q' : List Task)
    (h : DequeueIf q pred = some (t, q')) :
    ∃ pre post, q = pre ++ t :: post ∧ q' = pre ++ post ∧
      pred t = true ∧ ∀ u ∈ pre, pred u = false := by
  induction q generalizing t q' with
  | nil => simp [DequeueIf] at h
  | cons a as ih =>
    rw [DequeueIf] at h
    by_cases hp : pred a
    · rw [if_pos hp] at h
      obtain ⟨rfl, rfl⟩ : a = t ∧ as = q' := by
        simpa using h
      exact ⟨[], as, rfl, rfl, hp, by simp⟩
    · rw [if_neg hp] at h
      cases hd : DequeueIf as pred with
      | none => rw [hd] at h; simp at h
      | some pr =>
        rw [hd] at h
        obtain ⟨ht, hq'⟩ : pr.1 = t ∧ a :: pr.2 = q' := by
          simpa [Option.map] using h
        obtain ⟨pre, post, h1, h2, h3, h4⟩ := ih pr.1 pr.2 (by rw [hd])
        refine ⟨a :: pre, post, ?_, ?_, ?_, ?_⟩
        · simp [h1, ht]
        · simp [← hq', h2]
        · rw [← ht]; exact h3
        · intro u hu
          rcases List.mem_cons.mp hu with rfl | hu
          · exact Bool.eq_false_iff.mpr hp
          · exact h4 u hu

theorem DequeueIf_none_spec (q : List Task) (pred : Task → Bool)
    (h : DequeueIf q pred = none) : ∀ u ∈ q, pred u = false := by
  induction q with
  | nil => simp
  | cons a as ih =>
    rw [DequeueIf] at h
    by_cases hp : pred a
    · rw [if_pos hp] at h; simp at h
    · rw [if_neg hp] at h
      intro u hu
      rcases List.mem_cons.mp hu with rfl | hu
      · exact Bool.eq_false_iff.mpr hp
      · cases hd : DequeueIf as pred with
        | none => exact ih hd u hu
        | some pr => rw [hd] at h; simp at h

theorem lookupQ_cons (e : String × List Task) (rest : QueueMap) (p : String) :
    lookupQ (e :: rest) p = if e.1 = p then some e.2 else lookupQ rest p := by
  by_cases h : e.1 = p <;> simp [lookupQ, List.find?, h]

theorem lookupQ_setQ_self (m : QueueMap) (k : String) (q : List Task) :
    lookupQ (setQ m k q) k = some q := by
  induction m with
  | nil => simp [setQ, lookupQ_cons]
  | cons e rest ih =>
    rw [setQ]
    by_cases hk : e.1 = k
    · rw [if_pos hk]; simp [lookupQ_cons]
    · rw [if_neg hk]; simp [lookupQ_cons, hk, ih]

theorem lookupQ_setQ_ne (m : QueueMap) (k k2 : String) (q : List Task) (hne : k ≠ k2) :
    lookupQ (setQ m k q) k2 = lookupQ m k2 := by
  induction m with
  | nil => simp [setQ, lookupQ_cons, hne, lookupQ, List.find?]
  | cons e rest ih =>
    rw [setQ]
    by_cases hk : e.1 = k
    · rw [if_pos hk]
      simp [lookupQ_cons, hne, hk]
    · rw [if_neg hk]
      simp [lookupQ_cons, ih]

/-- Structure of a successful `getNextReadyAux` scan: the scan list splits
at the level `p` that produced the task; every earlier level had no ready
task in its queue; within level `p` the returned task is the first ready
one and everything else keeps its position. -/
theorem getNextReadyAux_spec (s : SchedState) (ps : List String) (t : Task) (s' : SchedState)
    (h : getNextReadyAux s ps = some (t, s')) :
    ∃ pres p rest q pre post,
      ps = pres ++ p :: rest ∧
      (∀ p2 ∈ pres, ∀ q2, lookupQ s.queues p2 = some q2 →
        ∀ u ∈ q2, areDependenciesMet s.globalTasks u = false) ∧
      lookupQ s.queues p = some q ∧
      q = pre ++ t :: post ∧
      areDependenciesMet s.globalTasks t = true ∧
      (∀ u ∈ pre, areDependenciesMet s.globalTasks u = false) ∧
      s' = { s with queues := setQ s.queues p (pre ++ post) } := by
  induction ps with
  | nil => simp [getNextReadyAux] at h
  | cons p ps ih =>
    rw [getNextReadyAux] at h
    split at h
    next hq =>
      obtain ⟨pres, p0, rest, q, pre, post, h1, h2, hrest⟩ := ih h
      refine ⟨p :: pres, p0, rest, q, pre, post, by rw [h1, List.cons_append], ?_, hrest⟩
      intro p2 hp2 q2 hq2
      rcases List.mem_cons.mp hp2 with rfl | hp2
      · rw [hq] at hq2; exact absurd hq2 (by simp)
      · exact h2 p2 hp2 q2 hq2
    next q hq =>
      split at h
      next hqe =>
        obtain ⟨pres, p0, rest, q0, pre, post, h1, h2, hrest⟩ := ih h
        refine ⟨p :: pres, p0, rest, q0, pre, post, by rw [h1, List.cons_append], ?_, hrest⟩
        intro p2 hp2 q2 hq2
        rcases List.mem_cons.mp hp2 with rfl | hp2
        · rw [hq] at hq2
          obtain rfl : q = q2 := by simpa using hq2
          intro u hu
          rw [List.isEmpty_iff.mp hqe] at hu
          simp at hu
        · exact h2 p2 hp2 q2 hq2
      next hqe =>
        split at h
        next t0 q0 hd =>
          obtain ⟨rfl, rfl⟩ :
              t0 = t ∧ ({ s with queues := setQ s.queues p q0 } : SchedState) = s' := by
            simpa using h
          obtain ⟨pre, post, h1, h2, h3, h4⟩ := DequeueIf_some_spec q _ t0 q0 hd
          exact ⟨[], p, ps, q, pre, post, rfl, by simp, hq, h1, h3, h4, by rw [h2]⟩
        next hd =>
          obtain ⟨pres, p0, rest, q0, pre, post, h1, h2, hrest⟩ := ih h
          refine ⟨p :: pres, p0, rest, q0, pre, post, by rw [h1, List.cons_append], ?_, hrest⟩
          intro p2 hp2 q2 hq2
          rcases List.mem_cons.mp hp2 with rfl | hp2
          · rw [hq] at hq2
            obtain rfl : q = q2 := by simpa using hq2
            exact DequeueIf_none_spec q _ hd
          · exact h2 p2 hp2 q2 hq2

/-! ## Helper lemmas about the load comparator and sort -/

theorem lessLoaded_false_iff (x y : AgentLoad) :
    lessLoaded x y = false ↔
      (loadFrac y ≤ loadFrac x ∧ (loadFrac x = loadFrac y → x.hierarchy ≤ y.hierarchy)) := by
  unfold lessLoaded
  by_cases he : loadFrac x = loadFrac y
  · rw [if_neg (by simp [he])]
    simp [he]
  · rw [if_pos he]
    simp only [decide_eq_false_iff_not, not_lt]
    constructor
    · intro hle
      exact ⟨hle, fun hcontra => absurd hcontra he⟩
    · intro hh
      exact hh.1

theorem lessLoaded_irrefl (a : AgentLoad) : lessLoaded a a = false := by
  rw [lessLoaded_false_iff]
  exact ⟨le_refl _, fun _ => le_refl _⟩

theorem lessLoaded_asymm {x y : AgentLoad} (h : lessLoaded x y = true) :
    lessLoaded y x = false := by
  rw [lessLoaded_false_iff]
  unfold lessLoaded at h
  by_cases he : loadFrac x = loadFrac y
  · rw [if_neg (by simp [he])] at h
    simp only [decide_eq_true_eq] at h
    exact ⟨le_of_eq he, fun _ => le_of_lt h⟩
  · rw [if_pos he] at h
    simp only [decide_eq_true_eq] at h
    exact ⟨le_of_lt h, fun hc => absurd hc.symm he⟩

theorem lessLoaded_negtrans {x y z : AgentLoad} (h1 : lessLoaded x y = false)
    (h2 : lessLoaded y z = false) : lessLoaded x z = false := by
  rw [lessLoaded_false_iff] at h1 h2 ⊢
  obtain ⟨a1, b1⟩ := h1
  obtain ⟨a2, b2⟩ := h2
  refine ⟨le_trans a2 a1, fun hxz => ?_⟩
  have hxy : loadFrac x = loadFrac y := le_antisymm (by rw [hxz]; exact a2) a1
  have hyz : loadFrac y = loadFrac z := by rw [← hxy, hxz]
  exact le_trans (b1 hxy) (b2 hyz)

theorem mem_insertLoaded {a x : AgentLoad} {l : List AgentLoad} :
    x ∈ insertLoaded a l ↔ x = a ∨ x ∈ l := by
  induction l with
  | nil => simp [insertLoaded]
  | cons b bs ih =>
    rw [insertLoaded]
    by_cases hba : lessLoaded b a
    · rw [if_pos hba]
      simp only [List.mem_cons, ih]
      constructor
      · intro hh; tauto
      · intro hh; tauto
    · rw [if_neg hba]
      simp only [List.mem_cons]

theorem insertLoaded_ne_nil (a : AgentLoad) (l : List AgentLoad) : insertLoaded a l ≠ [] := by
  cases l with
  | nil => simp [insertLoaded]
  | cons b bs =>
    rw [insertLoaded]
    split <;> simp

theorem sortLoaded_mem {x : AgentLoad} {l : List AgentLoad} :
    x ∈ sortLoaded l ↔ x ∈ l := by
  induction l with
  | nil => simp [sortLoaded]
  | cons a as ih =>
    rw [sortLoaded]
    rw [mem_insertLoaded]
    simp [ih]

theorem sortLoaded_eq_nil_iff (l : List AgentLoad) : sortLoaded l = [] ↔ l = [] := by
  cases l with
  | nil => simp [sortLoaded]
  | cons a as =>
    rw [sortLoaded]
    simpa using insertLoaded_ne_nil a (sortLoaded as)

theorem sortLoaded_head_min (l : List AgentLoad) (r : AgentLoad) (rest : List AgentLoad)
    (h : sortLoaded l = r :: rest) : ∀ b ∈ l, lessLoaded b r = false := by
  induction l generalizing r rest with
  | nil => simp [sortLoaded] at h
  | cons a as ih =>
    rw [sortLoaded] at h
    cases hs : sortLoaded as with
    | nil =>
      rw [hs] at h
      rw [insertLoaded] at h
      obtain ⟨rfl, rfl⟩ : a = r ∧ [] = rest := by simpa using h
      have has : as = [] := (sortLoaded_eq_nil_iff as).mp hs
      intro b hb
      rcases List.mem_cons.mp hb with rfl | hb
      · exact lessLoaded_irrefl b
      · rw [has] at hb; simp at hb
    | cons c cs =>
      rw [hs] at h
      rw [insertLoaded] at h
      by_cases hca : lessLoaded c a
      · rw [if_pos hca] at h
        obtain ⟨rfl, _⟩ : c = r ∧ insertLoaded a cs = rest := by simpa using h
        intro b hb
        rcases List.mem_cons.mp hb with rfl | hb
        · exact lessLoaded_asymm hca
        · exact ih c cs hs b hb
      · rw [if_neg hca] at h
        obtain ⟨rfl, _⟩ : a = r ∧ c :: cs = rest := by simpa using h
        intro b hb
        rcases List.mem_cons.mp hb with rfl | hb
        · exact lessLoaded_irrefl b
        · exact lessLoaded_negtrans (ih c cs hs b hb) (Bool.eq_false_iff.mpr hca)

/-! ## Helper lemma about mailbox pushes -/

theorem pushAll_of_room (msgs : List Message) (mb : Mailbox)
    (h : mb.inbox.length + msgs.length ≤ mb.cap) :
    pushAll mb msgs = Except.ok { mb with inbox := mb.inbox ++ msgs } := by
  induction msgs generalizing mb with
  | nil => simp [pushAll]
  | cons m ms ih =>
    rw [pushAll, PushInbox, if_pos (by simp at h ⊢; omega)]
    show pushAll { mb with inbox := mb.inbox ++ [m] } ms = _
    rw [ih { mb with inbox := mb.inbox ++ [m] } (by simp at h ⊢; omega)]
    simp

/-! ## Claim theorems -/

/-- C3: the claim states that every mutating operation on `GlobalState`
strictly increases the `Version` counter.  The code contradicts this (and
its own uniform convention, which the spec records): `AddExecutionHistory`
and `AddPublicAnnouncement` both mutate their bucket yet leave `Version`
unchanged, while e.g. `AddTask` does increment it. -/
theorem C3_version_counter_not_bumped :
    (GSAddExecutionHistory gsExample ehExample).version = gsExample.version ∧
    (GSAddExecutionHistory gsExample ehExample).companyExecHistory ≠
      gsExample.companyExecHistory ∧
    (GSAddPublicAnnouncement gsExample "launch").version = gsExample.version ∧
    (GSAddPublicAnnouncement gsExample "launch").announcements ≠ gsExample.announcements ∧
    gsExample.version < (GSAddTask gsExample (mkTask "t-2" "medium")).version := by
  refine ⟨rfl, by decide, rfl, by decide, by decide⟩

/-- C7: with inbox capacity `C` and no concurrent consumer, the first `C`
`PushInbox` calls each enqueue their message and return `nil`, and a
further push returns the mailbox-full error, leaving the queued contents
unchanged (the rejected message is never enqueued). -/
theorem C7_mailbox_fill_then_drop (receiver : String) (C : Nat) (msgs : List Message)
    (m : Message) (hlen : msgs.length = C) :
    pushAll { receiver := receiver, cap := C, inbox := [] } msgs =
      Except.ok { receiver := receiver, cap := C, inbox := msgs } ∧
    PushInbox { receiver := receiver, cap := C, inbox := msgs } m =
      Except.error ("mailbox " ++ receiver ++ " is full, message " ++ m.id ++ " dropped") := by
  constructor
  · have h := pushAll_of_room msgs { receiver := receiver, cap := C, inbox := [] }
      (by simp [hlen])
    simpa using h
  · rw [PushInbox, if_neg (by simp [hlen])]

/-- Witness for C7 at capacity 2 with three pushes. -/
theorem C7_mailbox_fill_then_drop_witness :
    pushAll { receiver := "ceo", cap := 2, inbox := [] } [mkMsg "m1", mkMsg "m2"] =
      Except.ok { receiver := "ceo", cap := 2, inbox := [mkMsg "m1", mkMsg "m2"] } ∧
    PushInbox { receiver := "ceo", cap := 2, inbox := [mkMsg "m1", mkMsg "m2"] } (mkMsg "m3") =
      Except.error ("mailbox " ++ "ceo" ++ " is full, message " ++ (mkMsg "m3").id ++
        " dropped") :=
  C7_mailbox_fill_then_drop "ceo" 2 [mkMsg "m1", mkMsg "m2"] (mkMsg "m3") rfl

/-- C8: the claim states that any two distinct tasks get distinct ids.
`GenerateTaskID` formats the clock at second resolution, so two `fireJob`
calls inside the same wall-clock second (e.g. two due jobs in one
`checkAndFire` tick) produce two distinct tasks with the identical id
`auto_20260211_120030`. -/
theorem C8_same_second_ids_collide :
    instantA ≠ instantB ∧
    fireJob timerJobA instantA instantA ≠ fireJob timerJobB instantB instantB ∧
    (fireJob timerJobA instantA instantA).id = "auto_20260211_120030" ∧
    (fireJob timerJobB instantB instantB).id = (fireJob timerJobA instantA instantA).id := by
  refine ⟨by decide, by decide, rfl, rfl⟩

/-- C9 counterexample: stopping the auto-scheduler twice is not the same
as stopping it once — the second call closes the already-closed stop
channel, which panics (`none`), while a single call succeeds. -/
theorem C9_scheduler_stop_panics_on_second_call :
    SchedulerStop { stopClosed := false } = some { stopClosed := true } ∧
    (SchedulerStop { stopClosed := false }).bind SchedulerStop = none := by
  exact ⟨rfl, rfl⟩

/-- C9 amended: for the agent runtime the claim holds — from any reachable
lifecycle state (`running` implies the stop channel is still open, which
`Start`/`Stop` maintain under `processingMu`), calling `Stop` twice equals
calling it once, and the call never panics; the auto-scheduler's `Stop`,
however, is not idempotent. -/
theorem C9_agent_stop_idempotent (a : AgentRuntime)
    (hreach : a.running = true → a.stopClosed = false) :
    (AgentStop a).bind AgentStop = AgentStop a ∧ (AgentStop a).isSome = true := by
  by_cases hr : a.running
  · have hc := hreach hr
    rw [AgentStop, if_pos hr, hc]
    exact ⟨rfl, rfl⟩
  · have hr' : a.running = false := by simpa using hr
    rw [AgentStop, if_neg hr]
    constructor
    · show AgentStop a = some a
      rw [AgentStop, if_neg hr]
    · rfl

/-- Witness for C9's amended theorem at the state just after `Start`. -/
theorem C9_agent_stop_idempotent_witness :
    (AgentStop { running := true, stopClosed := false }).bind AgentStop =
      AgentStop { running := true, stopClosed := false } ∧
    (AgentStop { running := true, stopClosed := false }).isSome = true :=
  C9_agent_stop_idempotent { running := true, stopClosed := false } (fun _ => rfl)

/-- C4: the claim states that the task-create round trip preserves all
declared fields including the deadline.  `RunTask` formats the deadline
into a local body that it then discards, and passes `nil` for the deadline
to `NewTaskCreateMessage` (its own comment says the deadline travels in
the body), so a task with a deadline decodes back with none; every other
declared field survives. -/
theorem C4_roundtrip_loses_deadline :
    (RunTaskMessage ["ops"] "uuid-1" taskWithDeadline).toOption.bind processDecode =
      some roundTripped ∧
    roundTripped.id = taskWithDeadline.id ∧
    roundTripped.title = taskWithDeadline.title ∧
    roundTripped.description = taskWithDeadline.description ∧
    roundTripped.assignedTo = taskWithDeadline.assignedTo ∧
    roundTripped.assignedBy = taskWithDeadline.assignedBy ∧
    roundTripped.dependencies = taskWithDeadline.dependencies ∧
    roundTripped.deliverables = taskWithDeadline.deliverables ∧
    roundTripped.metadata = taskWithDeadline.metadata ∧
    taskWithDeadline.deadline = some deadlineExample ∧
    roundTripped.deadline = none := by
  exact ⟨rfl, rfl, rfl, rfl, rfl, rfl, rfl, rfl, rfl, rfl, rfl⟩

/-- C10: a `task_query` request makes `handleRequestMessage` build a
response listing the agent's current tasks, addressed to receiver
`"unknown"`, and enqueue it into the agent's own inbox — never through the
bus (the function touches no state but the agent's own mailbox) — and the
returned error is `nil` even when the self-enqueue fails because the inbox
is full. -/
theorem C10_task_query_response_stays_local (a : BaseAgent) (uuid : String)
    (body : RequestBody) (hq : body.type = "task_query") :
    (handleRequestMessage a uuid body).2 = none ∧
    (taskQueryResponse a uuid).receiver = "unknown" ∧
    (taskQueryResponse a uuid).sender = a.name ∧
    (taskQueryResponse a uuid).body = MsgBody.request
      { type := "task_query_response"
        content := .taskList (a.currentTasks.map (fun t =>
          { taskId := t.id, title := t.title, status := t.status, priority := t.priority }))
        metadata := none } ∧
    ((a.mailbox.inbox.length < a.mailbox.cap ∧
        (handleRequestMessage a uuid body).1 =
          { a with mailbox := { a.mailbox with
              inbox := a.mailbox.inbox ++ [taskQueryResponse a uuid] } }) ∨
      (¬ a.mailbox.inbox.length < a.mailbox.cap ∧
        (handleRequestMessage a uuid body).1 = a)) := by
  rw [handleRequestMessage, if_pos hq]
  refine ⟨?_, rfl, rfl, rfl, ?_⟩
  · cases hp : PushInbox a.mailbox (taskQueryResponse a uuid) with
    | ok mb' => rfl
    | error e => rfl
  · by_cases hroom : a.mailbox.inbox.length < a.mailbox.cap
    · left
      refine ⟨hroom, ?_⟩
      rw [PushInbox, if_pos hroom]
    · right
      refine ⟨hroom, ?_⟩
      rw [PushInbox, if_neg hroom]

/-- Witness for C10 at a concrete agent and request. -/
theorem C10_task_query_response_stays_local_witness :
    (handleRequestMessage agentExample "u-9" queryBody).2 = none ∧
    (taskQueryResponse agentExample "u-9").receiver = "unknown" ∧
    (taskQueryResponse agentExample "u-9").sender = agentExample.name ∧
    (taskQueryResponse agentExample "u-9").body = MsgBody.request
      { type := "task_query_response"
        content := .taskList (agentExample.currentTasks.map (fun t =>
          { taskId := t.id, title := t.title, status := t.status, priority := t.priority }))
        metadata := none } ∧
    ((agentExample.mailbox.inbox.length < agentExample.mailbox.cap ∧
        (handleRequestMessage agentExample "u-9" queryBody).1 =
          { agentExample with mailbox := { agentExample.mailbox with
              inbox := agentExample.mailbox.inbox ++ [taskQueryResponse agentExample "u-9"] } }) ∨
      (¬ agentExample.mailbox.inbox.length < agentExample.mailbox.cap ∧
        (handleRequestMessage agentExample "u-9" queryBody).1 = agentExample)) :=
  C10_task_query_response_stays_local agentExample "u-9" queryBody rfl

/-- C1 counterexample: `TaskQueue.Dequeue` does not return equal-priority
tasks in FIFO order.  With `taskM1`, `taskM2` (both priority value 2)
enqueued before `taskC3` (priority value 0), `sortByPriority`'s exchange
sort swaps positions 0 and 2, so draining returns `taskM2` before the
earlier-enqueued `taskM1` inside the Medium level. -/
theorem C1_dequeue_breaks_fifo_within_level :
    taskM1.priority = taskM2.priority ∧
    PriorityValue taskM1.priority = PriorityValue taskM2.priority ∧
    drainDequeue 3 [taskM1, taskM2, taskC3] = [taskC3, taskM2, taskM1] := by
  exact ⟨rfl, rfl, by decide⟩

/-- C1 amended: `getNextReady` (via the spec-modelled `DequeueIf`) does
return ready tasks in strict priority order across the four levels and in
FIFO order among ready tasks within a level: a returned task comes from
the first scanned level holding a ready task — every earlier level's queue
contains no ready task — and is the earliest-enqueued ready task of its
queue, the rest keeping their positions; `TaskQueue.Dequeue` itself,
however, does not guarantee FIFO within a level (see the counterexample). -/
theorem C1_getNextReady_priority_then_fifo (s : SchedState) (t : Task) (s' : SchedState)
    (h : getNextReady s = some (t, s')) :
    ∃ pres p rest q pre post,
      priorities = pres ++ p :: rest ∧
      (∀ p2 ∈ pres, ∀ q2, lookupQ s.queues p2 = some q2 →
        ∀ u ∈ q2, areDependenciesMet s.globalTasks u = false) ∧
      lookupQ s.queues p = some q ∧
      q = pre ++ t :: post ∧
      areDependenciesMet s.globalTasks t = true ∧
      (∀ u ∈ pre, areDependenciesMet s.globalTasks u = false) ∧
      s' = { s with queues := setQ s.queues p (pre ++ post) } :=
  getNextReadyAux_spec s priorities t s' h

/-- Witness for C1's amended theorem at a concrete scheduler state. -/
theorem C1_getNextReady_priority_then_fifo_witness :
    ∃ pres p rest q pre post,
      priorities = pres ++ p :: rest ∧
      (∀ p2 ∈ pres, ∀ q2, lookupQ schedExample.queues p2 = some q2 →
        ∀ u ∈ q2, areDependenciesMet schedExample.globalTasks u = false) ∧
      lookupQ schedExample.queues p = some q ∧
      q = pre ++ readyCritical :: post ∧
      areDependenciesMet schedExample.globalTasks readyCritical = true ∧
      (∀ u ∈ pre, areDependenciesMet schedExample.globalTasks u = false) ∧
      schedExampleAfter =
        { schedExample with queues := setQ schedExample.queues p (pre ++ post) } :=
  C1_getNextReady_priority_then_fifo schedExample readyCritical schedExampleAfter rfl

/-- Everything a true `areDependenciesMet` says when a global state is
attached: each dependency id resolves to a completed task. -/
theorem areDependenciesMet_spec (gs : TaskMap) (t : Task)
    (h : areDependenciesMet (some gs) t = true) :
    ∀ depID ∈ t.dependencies, ∃ d, getTask gs depID = some d ∧ d.status = "completed" := by
  intro depID hdep
  rw [areDependenciesMet.eq_def] at h
  by_cases hde : t.dependencies.isEmpty
  · rw [List.isEmpty_iff] at hde
    rw [hde] at hdep
    simp at hdep
  · rw [if_neg hde] at h
    have hall : t.dependencies.all (fun depID =>
        match getTask gs depID with
        | none => false
        | some dep => dep.status = "completed") = true := h
    have hone := List.all_eq_true.mp hall depID hdep
    cases hg : getTask gs depID with
    | none => rw [hg] at hone; simp at hone
    | some d =>
      rw [hg] at hone
      exact ⟨d, rfl, by simpa using hone⟩

/-- C2: when the scheduler has a global state attached (as the program
always arranges — `main` hands the bus's state to `NewAutoScheduler`),
`getNextReady` returns a task only if each of its dependency ids resolves
to a task in that state with status `completed`; an unresolvable id keeps
the task queued, and a task with no dependencies is always considered
ready. -/
theorem C2_dependency_gating (s : SchedState) (gs : TaskMap)
    (hgs : s.globalTasks = some gs) (t : Task) (s' : SchedState)
    (h : getNextReady s = some (t, s')) :
    (∀ depID ∈ t.dependencies, ∃ d, getTask gs depID = some d ∧ d.status = "completed") ∧
    (∀ u : Task, u.dependencies = [] → areDependenciesMet s.globalTasks u = true) := by
  obtain ⟨pres, p, rest, q, pre, post, h1, h2, h3, h4, hmet, h6, h7⟩ :=
    getNextReadyAux_spec s priorities t s' h
  constructor
  · apply areDependenciesMet_spec gs t
    rw [← hgs]
    exact hmet
  · intro u hu
    rw [areDependenciesMet.eq_def, hu]
    simp

/-- Witness for C2 at a concrete scheduler state. -/
theorem C2_dependency_gating_witness :
    (∀ depID ∈ readyCritical.dependencies,
      ∃ d, getTask ([] : TaskMap) depID = some d ∧ d.status = "completed") ∧
    (∀ u : Task, u.dependencies = [] →
      areDependenciesMet schedExample.globalTasks u = true) :=
  C2_dependency_gating schedExample [] rfl readyCritical schedExampleAfter rfl

theorem memCanonical_false_iff (s : SchedState) (t : Task) :
    memCanonical s t = false ↔ ∀ p ∈ priorities, t ∉ (lookupQ s.queues p).getD [] := by
  unfold memCanonical
  rw [List.any_eq_false]
  simp

/-- One `getNextReady` step never returns a task absent from all canonical
queues, and preserves that absence. -/
theorem getNextReady_misses_noncanonical (s : SchedState) (t : Task)
    (hnc : memCanonical s t = false) (u : Task) (s' : SchedState)
    (h : getNextReady s = some (u, s')) :
    u ≠ t ∧ memCanonical s' t = false := by
  obtain ⟨pres, p, rest, q, pre, post, hsplit, hpres, hlook, hq, hmet, hpre, hs'⟩ :=
    getNextReadyAux_spec s priorities u s' h
  have hpmem : p ∈ priorities := by
    rw [hsplit]
    exact List.mem_append_right _ (List.mem_cons_self _ _)
  have htq : t ∉ q := by
    have := (memCanonical_false_iff s t).mp hnc p hpmem
    rw [hlook] at this
    simpa using this
  constructor
  · intro hut
    apply htq
    rw [hq, hut]
    exact List.mem_append_right _ (List.mem_cons_self _ _)
  · rw [memCanonical_false_iff]
    intro p2 hp2
    have hqueues : s'.queues = setQ s.queues p (pre ++ post) := by rw [hs']
    by_cases hpp : p = p2
    · rw [hqueues, ← hpp, lookupQ_setQ_self]
      intro hmem
      apply htq
      rw [hq]
      simp only [Option.getD_some] at hmem
      rcases List.mem_append.mp hmem with hl | hr
      · exact List.mem_append_left _ hl
      · exact List.mem_append_right _ (List.mem_cons_of_mem _ hr)
    · rw [hqueues, lookupQ_setQ_ne s.queues p p2 _ hpp]
      exact (memCanonical_false_iff s t).mp hnc p2 hp2

/-- Iterated dispatch never emits a task absent from the canonical queues. -/
theorem dispatchList_misses_noncanonical (t : Task) :
    ∀ (n : Nat) (s : SchedState), memCanonical s t = false → t ∉ dispatchList n s := by
  intro n
  induction n with
  | zero =>
    intro s _
    simp [dispatchList]
  | succ n ih =>
    intro s hnc
    rw [dispatchList]
    cases hg : getNextReady s with
    | none => simp
    | some pr =>
      cases pr with
      | mk u s2 =>
        obtain ⟨hne, hnc2⟩ := getNextReady_misses_noncanonical s t hnc u s2 hg
        intro hmem
        rcases List.mem_cons.mp hmem with rfl | hmem
        · exact hne rfl
        · exact ih s2 hnc2 hmem

/-- C6: a task added under a priority string outside the four canonical
capitalized levels (for example the lowercase `ds` values an agent's
task-generation loop passes as `string(task.Priority)`) lands in a
dynamically created queue keyed by that string, and since `getNextReady`
scans only the four canonical queues, the task is never returned by any
number of dispatch steps. -/
theorem C6_noncanonical_priority_never_dispatched (s : SchedState) (t : Task) (p : String)
    (hp : p ∉ priorities) (hnc : memCanonical s t = false) :
    lookupQ (AddTask s t p).queues p = some ((lookupQ s.queues p).getD [] ++ [t]) ∧
    ∀ n, t ∉ dispatchList n (AddTask s t p) := by
  have hqueues : (AddTask s t p).queues =
      setQ s.queues p ((lookupQ s.queues p).getD [] ++ [t]) := rfl
  constructor
  · rw [hqueues, lookupQ_setQ_self]
  · intro n
    apply dispatchList_misses_noncanonical t n
    rw [memCanonical_false_iff]
    intro p2 hp2
    have hne : p ≠ p2 := fun hh => hp (hh ▸ hp2)
    rw [hqueues, lookupQ_setQ_ne s.queues p p2 _ hne]
    exact (memCanonical_false_iff s t).mp hnc p2 hp2

/-- Witness for C6: scheduling `lowercaseTask` under the lowercase string
`"medium"` on an empty scheduler parks it in an unscanned queue. -/
theorem C6_noncanonical_priority_never_dispatched_witness :
    lookupQ (AddTask schedExampleAfter lowercaseTask "medium").queues "medium" =
      some ((lookupQ schedExampleAfter.queues "medium").getD [] ++ [lowercaseTask]) ∧
    ∀ n, lowercaseTask ∉ dispatchList n (AddTask schedExampleAfter lowercaseTask "medium") :=
  C6_noncanonical_priority_never_dispatched schedExampleAfter lowercaseTask "medium"
    (by decide) (by decide)

/-- C5: the agent-selection policy.  Pinned tasks: when `assignedTo` names
an agent in the load table, that agent is returned iff it has spare
capacity, and `nil` is returned when it is saturated (the task is never
reassigned).  Unpinned tasks: the result is `nil` exactly when no agent
has `currentLoad < maxTasks`, and any returned agent has spare capacity,
the lowest load ratio among agents with spare capacity, and the highest
hierarchy rank among those tying on the ratio. -/
theorem C5_findBestAgent_policy (loads : List AgentLoad) (t : Task) :
    (∀ a : AgentLoad, t.assignedTo ≠ "" →
        loads.find? (fun x => x.name = t.assignedTo) = some a →
        (a.currentLoad < a.maxTasks → findBestAgent loads t = some a) ∧
        (¬ a.currentLoad < a.maxTasks → findBestAgent loads t = none)) ∧
    (t.assignedTo = "" →
      (findBestAgent loads t = none ↔ ∀ b ∈ loads, ¬ b.currentLoad < b.maxTasks) ∧
      (∀ r : AgentLoad, findBestAgent loads t = some r →
        r ∈ loads ∧ r.currentLoad < r.maxTasks ∧
        ∀ b ∈ loads, b.currentLoad < b.maxTasks →
          loadFrac r ≤ loadFrac b ∧ (loadFrac r = loadFrac b → b.hierarchy ≤ r.hierarchy))) := by
  constructor
  · intro a hne hfind
    constructor
    · intro hcap
      rw [findBestAgent, if_pos hne, hfind]
      show (if a.currentLoad < a.maxTasks then some a else none) = some a
      rw [if_pos hcap]
    · intro hcap
      rw [findBestAgent, if_pos hne, hfind]
      show (if a.currentLoad < a.maxTasks then some a else none) = none
      rw [if_neg hcap]
  · intro hempty
    have hne : ¬ (t.assignedTo ≠ "") := by simp [hempty]
    constructor
    · constructor
      · intro hnone
        rw [findBestAgent, if_neg hne] at hnone
        cases hs : sortLoaded (loads.filter (fun a => a.currentLoad < a.maxTasks)) with
        | nil =>
          have hfil : loads.filter (fun a => a.currentLoad < a.maxTasks) = [] :=
            (sortLoaded_eq_nil_iff _).mp hs
          intro b hb
          have hb2 := List.filter_eq_nil_iff.mp hfil b hb
          simpa using hb2
        | cons c cs =>
          rw [hs] at hnone
          exact Option.noConfusion hnone
      · intro hall
        rw [findBestAgent, if_neg hne]
        have hfil : loads.filter (fun a => a.currentLoad < a.maxTasks) = [] :=
          List.filter_eq_nil_iff.mpr (fun b hb => by simpa using hall b hb)
        rw [hfil]
        rfl
    · intro r hr
      rw [findBestAgent, if_neg hne] at hr
      cases hs : sortLoaded (loads.filter (fun a => a.currentLoad < a.maxTasks)) with
      | nil =>
        rw [hs] at hr
        exact Option.noConfusion hr
      | cons c cs =>
        rw [hs] at hr
        obtain rfl : c = r := Option.some.inj hr
        have hcmem : c ∈ loads.filter (fun a => a.currentLoad < a.maxTasks) := by
          have hmem : c ∈ sortLoaded (loads.filter (fun a => a.currentLoad < a.maxTasks)) := by
            rw [hs]
            exact List.mem_cons_self _ _
          exact sortLoaded_mem.mp hmem
        have hcl : c ∈ loads := List.mem_of_mem_filter hcmem
        have hcap : c.currentLoad < c.maxTasks := by
          have := List.of_mem_filter hcmem
          simpa using this
        refine ⟨hcl, hcap, ?_⟩
        intro b hb hbcap
        have hbfil : b ∈ loads.filter (fun a => a.currentLoad < a.maxTasks) :=
          List.mem_filter.mpr ⟨hb, by simpa using hbcap⟩
        have hless := sortLoaded_head_min _ c cs hs b hbfil
        have hspec := (lessLoaded_false_iff b c).mp hless
        exact ⟨hspec.1, fun heq => hspec.2 heq.symm⟩

/-- Witness for C5: a pinned task whose named assignee is saturated is not
dispatched even though another agent has capacity. -/
theorem C5_findBestAgent_policy_witness : findBestAgent [ceoLoad, opsLoad] pinnedTask = none := by
  have h := (C5_findBestAgent_policy [ceoLoad, opsLoad] pinnedTask).1 ceoLoad
    (by decide) (by decide)
  exact h.2 (by decide)

end SuperMan
